import Mathlib

/-!
Verification of the llm_viewer repository (src/proxy.py, src/dashboard.py).

The development shallowly embeds the two Python modules:

* `proxy_request` models `ProxyHandler.proxy_request` (src/proxy.py).
  Library calls that the module merely invokes are passed in as function
  parameters (oracles): `gz` models `gzip.decompress` (an `Except` whose
  error carries `str(exception)`), `utf8` models `bytes.decode("utf-8")`
  (`none` = `UnicodeDecodeError`), `jl` models `json.loads` (`none` =
  `JSONDecodeError`), `lossy` models `bytes.decode("utf-8", errors="ignore")`
  which never fails, and `upstream` models `urllib.request.urlopen` on the
  built outbound request (success / `HTTPError` / other exception).
  Bytes are `List Nat`; header collections are association lists in
  arrival order, and the header `dict` built at proxy.py:41-46 is modelled
  by `dictOfItems`/`dictInsert`, which collapse repeated names exactly as
  a Python dict comprehension does: a repeated name keeps only its last
  value, at the position of the name's first occurrence.

* `get_all_log_entries`, `get_latest_log_entry`, `connect`, `disconnect`
  and `broadcast_latest_log` model the same-named methods of
  `WebSocketManager` (src/dashboard.py).  The log file is
  `Option (List String)` (`none` = missing file), `now` is the string
  `datetime.now().isoformat()` would produce, and `sendOk` tells whether
  `await websocket.send_json(...)` succeeds for a viewer/message pair.

JSON values are the inductive `JVal` (numbers as `Int`; floating point
JSON numbers are outside the claims) and `dumps` models Python
`json.dumps` with its default separators and `ensure_ascii=True`.
-/

/-- JSON values as produced by `json.loads` / consumed by `json.dumps`.
Numbers are modelled as integers (no claim involves JSON floats). -/
inductive JVal where
  | obj (fields : List (String × JVal))
  | arr (elems : List JVal)
  | str (s : String)
  | num (n : Int)
  | bool (b : Bool)
  | null
deriving Repr

/-- Decimal digit character, as `str()` renders one digit. -/
def digitChar (d : Nat) : Char :=
  match d with
  | 0 => '0' | 1 => '1' | 2 => '2' | 3 => '3' | 4 => '4'
  | 5 => '5' | 6 => '6' | 7 => '7' | 8 => '8' | _ => '9'

/-- Decimal rendering of a natural number, as Python `str(n)`. -/
def natChars (n : Nat) : List Char :=
  if _h : n < 10 then [digitChar n]
  else natChars (n / 10) ++ [digitChar (n % 10)]
decreasing_by exact Nat.div_lt_self (by omega) (by omega)

/-- Decimal rendering of an integer, as Python `str(n)`. -/
def intChars (n : Int) : List Char :=
  if n < 0 then '-' :: natChars n.natAbs else natChars n.toNat

/-- Lower-case hexadecimal digit. -/
def hexChar (d : Nat) : Char :=
  match d with
  | 0 => '0' | 1 => '1' | 2 => '2' | 3 => '3' | 4 => '4'
  | 5 => '5' | 6 => '6' | 7 => '7' | 8 => '8' | 9 => '9'
  | 10 => 'a' | 11 => 'b' | 12 => 'c' | 13 => 'd' | 14 => 'e' | _ => 'f'

/-- `\uXXXX` escape for a code unit, as `json.dumps` emits with
`ensure_ascii=True`. -/
def uEsc (n : Nat) : List Char :=
  let d0 := hexChar (n % 16)
  let d1 := hexChar (n / 16 % 16)
  let d2 := hexChar (n / 256 % 16)
  let d3 := hexChar (n / 4096 % 16)
  '\\' :: 'u' :: d3 :: d2 :: d1 :: [d0]

/-- Escaping of one character inside a JSON string literal, following
Python `json.dumps` with `ensure_ascii=True` (everything outside
`0x20..0x7e` is escaped; characters above the BMP become a surrogate
pair). -/
def escChar (c : Char) : List Char :=
  if c = '\\' then ['\\', '\\']
  else if c = '"' then ['\\', '"']
  else if c = '\n' then ['\\', 'n']
  else if c = '\t' then ['\\', 't']
  else if c = '\r' then ['\\', 'r']
  else if c.toNat = 8 then ['\\', 'b']
  else if c.toNat = 12 then ['\\', 'f']
  else if c.toNat < 32 ∨ c.toNat ≥ 127 then
    if c.toNat < 65536 then uEsc c.toNat
    else uEsc (55296 + (c.toNat - 65536) / 1024) ++ uEsc (56320 + (c.toNat - 65536) % 1024)
  else [c]

/-- Escaped body of a JSON string literal. -/
def escString (s : String) : List Char :=
  s.toList.foldr (fun c acc => escChar c ++ acc) []

mutual

/-- `json.dumps` of a JSON value (default separators `", "` and `": "`,
`ensure_ascii=True`), as a character list. -/
def dumpsV : JVal → List Char
  | .obj kvs => '\x7b' :: (dumpsObj kvs ++ ['\x7d'])
  | .arr xs => '[' :: (dumpsArr xs ++ [']'])
  | .str s => '"' :: (escString s ++ ['"'])
  | .num n => intChars n
  | .bool b => if b then "true".toList else "false".toList
  | .null => "null".toList

/-- Comma-separated rendering of array elements. -/
def dumpsArr : List JVal → List Char
  | [] => []
  | [x] => dumpsV x
  | x :: y :: xs => dumpsV x ++ ',' :: ' ' :: dumpsArr (y :: xs)

/-- Comma-separated rendering of object members. -/
def dumpsObj : List (String × JVal) → List Char
  | [] => []
  | [(k, v)] => '"' :: (escString k ++ '"' :: ':' :: ' ' :: dumpsV v)
  | (k, v) :: m :: kvs =>
      ('"' :: (escString k ++ '"' :: ':' :: ' ' :: dumpsV v)) ++
        ',' :: ' ' :: dumpsObj (m :: kvs)

end

/-- `json.dumps` of a JSON value as a string. -/
def dumps (v : JVal) : String := String.mk (dumpsV v)

theorem digitChar_ne_nl (d : Nat) : digitChar d ≠ '\n' := by
  unfold digitChar; split <;> decide

theorem hexChar_ne_nl (d : Nat) : hexChar d ≠ '\n' := by
  unfold hexChar; split <;> decide

theorem natChars_ne_nl (n : Nat) : ∀ c ∈ natChars n, c ≠ '\n' := by
  intro c hc
  unfold natChars at hc
  split at hc
  · simp at hc; subst hc; exact digitChar_ne_nl _
  · rcases List.mem_append.mp hc with h | h
    · exact natChars_ne_nl _ c h
    · simp at h; subst h; exact digitChar_ne_nl _
decreasing_by exact Nat.div_lt_self (by omega) (by omega)

theorem intChars_ne_nl (n : Int) : ∀ c ∈ intChars n, c ≠ '\n' := by
  intro c hc
  unfold intChars at hc
  split at hc
  · rcases List.mem_cons.mp hc with h | h
    · subst h; decide
    · exact natChars_ne_nl _ c h
  · exact natChars_ne_nl _ c hc

theorem uEsc_ne_nl (n : Nat) : ∀ c ∈ uEsc n, c ≠ '\n' := by
  intro c hc
  simp [uEsc] at hc
  rcases hc with h | h | h | h | h | h <;> subst h
  · decide
  · decide
  all_goals exact hexChar_ne_nl _

theorem escChar_ne_nl (c : Char) : ∀ d ∈ escChar c, d ≠ '\n' := by
  intro d hd hn
  subst hn
  unfold escChar at hd
  split at hd
  · revert hd; decide
  · split at hd
    · revert hd; decide
    · split at hd
      · revert hd; decide
      · split at hd
        · revert hd; decide
        · split at hd
          · revert hd; decide
          · split at hd
            · revert hd; decide
            · split at hd
              · revert hd; decide
              · split at hd
                · split at hd
                  · exact uEsc_ne_nl _ '\n' hd rfl
                  · rcases List.mem_append.mp hd with h | h <;>
                      exact uEsc_ne_nl _ '\n' h rfl
                · simp at hd
                  subst hd
                  simp_all

theorem escString_ne_nl (s : String) : ∀ c ∈ escString s, c ≠ '\n' := by
  unfold escString
  induction s.toList with
  | nil => intro c hc; simp at hc
  | cons a l ih =>
      intro c hc
      simp only [List.foldr_cons] at hc
      rcases List.mem_append.mp hc with h | h
      · exact escChar_ne_nl a c h
      · exact ih c h

mutual

theorem dumpsV_ne_nl : ∀ (v : JVal), ∀ c ∈ dumpsV v, c ≠ '\n'
  | .null => by intro c hc hn; subst hn; simp only [dumpsV] at hc; revert hc; decide
  | .bool b => by
      intro c hc hn
      subst hn
      simp only [dumpsV] at hc
      cases b <;> (simp only [Bool.false_eq_true, if_true, if_false] at hc; revert hc; decide)
  | .num n => by intro c hc; exact intChars_ne_nl n c hc
  | .str s => by
      intro c hc
      rcases List.mem_cons.mp hc with h | h
      · subst h; decide
      · rcases List.mem_append.mp h with h2 | h2
        · exact escString_ne_nl s c h2
        · simp at h2; subst h2; decide
  | .arr xs => by
      intro c hc
      rcases List.mem_cons.mp hc with h | h
      · subst h; decide
      · rcases List.mem_append.mp h with h2 | h2
        · exact dumpsArr_ne_nl xs c h2
        · simp at h2; subst h2; decide
  | .obj kvs => by
      intro c hc
      rcases List.mem_cons.mp hc with h | h
      · subst h; decide
      · rcases List.mem_append.mp h with h2 | h2
        · exact dumpsObj_ne_nl kvs c h2
        · simp at h2; subst h2; decide

theorem dumpsArr_ne_nl : ∀ (xs : List JVal), ∀ c ∈ dumpsArr xs, c ≠ '\n'
  | [] => by intro c hc; simp [dumpsArr] at hc
  | [x] => by intro c hc; exact dumpsV_ne_nl x c hc
  | x :: y :: xs => by
      intro c hc
      rw [dumpsArr] at hc
      rcases List.mem_append.mp hc with h | h
      · exact dumpsV_ne_nl x c h
      · rcases List.mem_cons.mp h with h2 | h2
        · subst h2; decide
        · rcases List.mem_cons.mp h2 with h3 | h3
          · subst h3; decide
          · exact dumpsArr_ne_nl (y :: xs) c h3

theorem dumpsObj_ne_nl : ∀ (kvs : List (String × JVal)), ∀ c ∈ dumpsObj kvs, c ≠ '\n'
  | [] => by intro c hc; simp [dumpsObj] at hc
  | [(k, v)] => by
      intro c hc
      rw [dumpsObj] at hc
      rcases List.mem_cons.mp hc with h | h
      · subst h; decide
      · rcases List.mem_append.mp h with h2 | h2
        · exact escString_ne_nl k c h2
        · rcases List.mem_cons.mp h2 with h3 | h3
          · subst h3; decide
          · rcases List.mem_cons.mp h3 with h4 | h4
            · subst h4; decide
            · rcases List.mem_cons.mp h4 with h5 | h5
              · subst h5; decide
              · exact dumpsV_ne_nl v c h5
  | (k, v) :: m :: kvs => by
      intro c hc
      rw [dumpsObj] at hc
      rcases List.mem_append.mp hc with h | h
      · rcases List.mem_cons.mp h with h2 | h2
        · subst h2; decide
        · rcases List.mem_append.mp h2 with h3 | h3
          · exact escString_ne_nl k c h3
          · rcases List.mem_cons.mp h3 with h4 | h4
            · subst h4; decide
            · rcases List.mem_cons.mp h4 with h5 | h5
              · subst h5; decide
              · rcases List.mem_cons.mp h5 with h6 | h6
                · subst h6; decide
                · exact dumpsV_ne_nl v c h6
      · rcases List.mem_cons.mp h with h2 | h2
        · subst h2; decide
        · rcases List.mem_cons.mp h2 with h3 | h3
          · subst h3; decide
          · exact dumpsObj_ne_nl (m :: kvs) c h3

end

theorem dumps_no_newline (v : JVal) : '\n' ∉ (dumps v).toList := by
  intro h
  exact dumpsV_ne_nl v '\n' h rfl

/-! ## Python-level helpers shared by both modules -/

/-- Whitespace characters stripped by Python `str.strip()`
(space, tab, newline, carriage return, vertical tab, form feed;
other Unicode space characters are outside the claims). -/
def isPySpace (c : Char) : Bool :=
  c = ' ' || c = '\t' || c = '\n' || c = '\r' || c.toNat = 11 || c.toNat = 12

/-- Python `str.strip()`. -/
def pyStrip (s : String) : String :=
  String.mk (((s.toList.dropWhile isPySpace).reverse.dropWhile isPySpace).reverse)

/-- Digits of a decimal literal folded to a number. -/
def digitsToNat (l : List Char) : Nat :=
  l.foldl (fun n c => n * 10 + (c.toNat - 48)) 0

/-- Python `int(s)` for base 10: optional surrounding whitespace, an
optional sign, then one or more ASCII digits; `none` models the
`ValueError` raised otherwise.  (Underscore digit separators and Unicode
digits, which CPython also accepts, are outside the claims and not
modelled.) -/
def pyInt (s : String) : Option Int :=
  let t := pyStrip s
  let core : Option (Int × List Char) :=
    match t.toList with
    | '+' :: rest => some (1, rest)
    | '-' :: rest => some (-1, rest)
    | l => some (1, l)
  match core with
  | some (sign, digits) =>
      if digits ≠ [] && digits.all Char.isDigit then
        some (sign * (digitsToNat digits : Int))
      else none
  | none => none

/-- ASCII lower-casing of one character. -/
def lowerChar : Char → Char
  | 'A' => 'a' | 'B' => 'b' | 'C' => 'c' | 'D' => 'd' | 'E' => 'e'
  | 'F' => 'f' | 'G' => 'g' | 'H' => 'h' | 'I' => 'i' | 'J' => 'j'
  | 'K' => 'k' | 'L' => 'l' | 'M' => 'm' | 'N' => 'n' | 'O' => 'o'
  | 'P' => 'p' | 'Q' => 'q' | 'R' => 'r' | 'S' => 's' | 'T' => 't'
  | 'U' => 'u' | 'V' => 'v' | 'W' => 'w' | 'X' => 'x' | 'Y' => 'y'
  | 'Z' => 'z' | c => c

/-- Python `str.lower()` (for the ASCII strings HTTP header names are;
non-ASCII lower-casing is outside the claims). -/
def pyLower (s : String) : String := String.mk (s.toList.map lowerChar)

/-- Simplified Python `repr` of a string, as it appears inside the
`ValueError` message of `int()` (quote selection and escaping for exotic
contents are not modelled; claim inputs contain neither quotes nor
escapes). -/
def pyRepr (s : String) : String := "'" ++ s ++ "'"

/-- `email.message.Message.get(name)`: case-insensitive lookup returning
the first matching header value. -/
def headerGet (hs : List (String × String)) (name : String) : Option String :=
  (hs.find? (fun kv => pyLower kv.1 == pyLower name)).map (fun kv => kv.2)

/-! ## Model of `ProxyHandler.proxy_request` (src/proxy.py) -/

/-- A Python exception class relevant to the decode chain of
proxy.py:55-68 - `UnicodeDecodeError` versus anything else (there
`str(exception)` is kept). -/
inductive PyExc where
  | unicode
  | other (msg : String)

/-- The inbound HTTP request as `BaseHTTPRequestHandler` exposes it:
`self.command`, `self.path` (which includes the query string), the
header list in arrival order, and the readable body stream `self.rfile`
(assumed to hold at least the declared number of bytes). -/
structure Inbound where
  command : String
  path : String
  headers : List (String × String)
  rfile : List Nat

/-- The outbound `urllib.request.Request` built at proxy.py:40-48. -/
structure OutboundRequest where
  url : String
  method : String
  headers : List (String × String)
  data : List Nat

/-- What `urllib.request.urlopen` does with the outbound request:
a response object (status, headers, body bytes), an
`urllib.error.HTTPError` (code, response headers, error body bytes), or
any other exception carrying `str(e)`. -/
inductive UpstreamResult where
  | success (status : Nat) (headers : List (String × String)) (body : List Nat)
  | httpError (code : Nat) (headers : List (String × String)) (body : List Nat)
  | failure (msg : String)

/-- The response written back to the caller: the `send_response` status,
the explicitly `send_header`-ed headers in order, and the body bytes
written to `wfile`.  (The `Server`/`Date` headers that
`BaseHTTPRequestHandler.send_response` adds on its own are framework
behavior outside src/ and are not modelled.) -/
structure SentResponse where
  status : Nat
  headers : List (String × String)
  body : List Nat
deriving Repr, DecidableEq

/-- Everything observable about one `proxy_request` call: the response
sent to the caller, the final values of the `request_json` and
`response_json` locals (proxy.py:24-25), and the outbound request that
was handed to `urlopen` (`none` when the handler failed before building
it). -/
structure ProxyOutcome where
  sent : SentResponse
  request_json : String
  response_json : Option JVal
  outbound : Option OutboundRequest

/-- `int(self.headers.get('Content-Length', 0))` at proxy.py:29:
a missing header defaults to the integer 0; a present header is parsed
by `int`, whose `ValueError` carries the shown message. -/
def readContentLength (hs : List (String × String)) : Except String Int :=
  match headerGet hs "Content-Length" with
  | none => .ok 0
  | some v =>
      match pyInt v with
      | some n => .ok n
      | none => .error ("invalid literal for int() with base 10: " ++ pyRepr v)

/-- `self.rfile.read(content_length) if content_length > 0 else b''` at
proxy.py:30. -/
def requestBody (cl : Int) (inb : Inbound) : List Nat :=
  if cl > 0 then inb.rfile.take cl.toNat else []

/-- The request headers dropped at proxy.py:42 (case-insensitive). -/
def dropReqHeader (k : String) : Bool :=
  pyLower k == "host" || pyLower k == "connection" || pyLower k == "content-length"

/-- The response headers dropped at proxy.py:73 (case-insensitive). -/
def dropRespHeader (k : String) : Bool :=
  pyLower k == "connection" || pyLower k == "transfer-encoding"

/-- Whether the mapping holds the exact key `k` (Python dict keys are
case-sensitive strings). -/
def hasKey (d : List (String × String)) (k : String) : Bool :=
  d.any (fun kv => kv.1 == k)

/-- Python dict assignment `d[k] = v` on an insertion-ordered mapping:
an existing exact key keeps its position and takes the new value, a new
key is appended at the end. -/
def dictInsert (d : List (String × String)) (k v : String) : List (String × String) :=
  if hasKey d k then d.map (fun kv => if kv.1 == k then (kv.1, v) else kv)
  else d ++ [(k, v)]

/-- The mapping a Python dict comprehension builds from a sequence of
key/value items: one assignment per item in order, so a repeated name
keeps its first position and its last value. -/
def dictOfItems (items : List (String × String)) : List (String × String) :=
  items.foldl (fun d kv => dictInsert d kv.1 kv.2) []

/-- Lookup of the exact key `k` in a mapping (observer used by the
theorems). -/
def dictFind : List (String × String) → String → Option String
  | [], _ => none
  | kv :: rest, k => if kv.1 == k then some kv.2 else dictFind rest k

/-- The value of the last item carrying the exact key `k` (observer the
theorems use to state that the last value wins). -/
def lastValue (items : List (String × String)) (k : String) : Option String :=
  ((items.filter (fun kv => kv.1 == k)).getLast?).map (fun kv => kv.2)

/-- Building the outbound request, proxy.py:40-48: URL is the target
base concatenated with the inbound path (query string included); the
headers are the dict comprehension over the filtered inbound header
items - so repeated names collapse, last value winning - followed by
the assignment `headers['Content-Length'] = str(len(body))` when the
body is non-empty; the method is the inbound one. -/
def buildOutbound (target : String) (inb : Inbound) (body : List Nat) : OutboundRequest :=
  let hs := dictOfItems (inb.headers.filter (fun kv => ! dropReqHeader kv.1))
  let hs := if body.isEmpty then hs else dictInsert hs "Content-Length" (toString body.length)
  ⟨target ++ inb.path, inb.command, hs, body⟩

/-- True when the body starts with the gzip magic bytes `1F 8B`
(proxy.py:56). -/
def gzipMagic (body : List Nat) : Bool :=
  match body with
  | b0 :: b1 :: _ => b0 == 31 && b1 == 139
  | _ => false

/-- The text-producing stage of proxy.py:56-59: gzip-decompress when the
magic bytes are present, then UTF-8-decode; failures are the exception
that escapes it. -/
def decodeStage (gz : List Nat → Except String (List Nat))
    (utf8 : List Nat → Option String) (body : List Nat) : Except PyExc String :=
  if gzipMagic body then
    match gz body with
    | .error m => .error (.other m)
    | .ok db =>
        match utf8 db with
        | none => .error .unicode
        | some t => .ok t
  else
    match utf8 body with
    | none => .error .unicode
    | some t => .ok t

/-- The full decode chain for a successful upstream body,
proxy.py:55-68: try gzip/UTF-8, then `json.loads` with its four
fallbacks. -/
def decodeResponse (gz : List Nat → Except String (List Nat))
    (utf8 : List Nat → Option String) (jl : String → Option JVal)
    (body : List Nat) : JVal :=
  match decodeStage gz utf8 body with
  | .ok t =>
      match jl t with
      | some v => v
      | none => .obj [("raw_response", .str t)]
  | .error .unicode =>
      .obj [("error", .str "Binary response received"), ("raw_bytes", .num (body.length : Int))]
  | .error (.other m) =>
      .obj [("error", .str ("Decoding error: " ++ m)), ("raw_bytes", .num (body.length : Int))]

/-- The decode chain of the `HTTPError` handler, proxy.py:80-86:
strict UTF-8 decode then `json.loads`; a `JSONDecodeError` logs
`{"error": <lossily decoded body>}`, a `UnicodeDecodeError` logs the
binary marker.  Note: no gzip handling here. -/
def decodeHttpError (utf8 : List Nat → Option String) (jl : String → Option JVal)
    (lossy : List Nat → String) (body : List Nat) : JVal :=
  match utf8 body with
  | none =>
      .obj [("error", .str "Binary response received"), ("raw_bytes", .num (body.length : Int))]
  | some t =>
      match jl t with
      | some v => v
      | none => .obj [("error", .str (lossy body))]

/-- `ProxyHandler.proxy_request`, proxy.py:23-96 (the logging tail at
98-101 is `appendLog` below).  Oracles as described in the header
comment. -/
def proxy_request (target : String) (gz : List Nat → Except String (List Nat))
    (utf8 : List Nat → Option String) (jl : String → Option JVal)
    (lossy : List Nat → String) (upstream : OutboundRequest → UpstreamResult)
    (inb : Inbound) : ProxyOutcome :=
  match readContentLength inb.headers with
  | .error msg =>
      ⟨⟨500, [], []⟩, "", some (.obj [("error", .str msg)]), none⟩
  | .ok cl =>
      let body := requestBody cl inb
      let request_json := lossy body
      let req := buildOutbound target inb body
      match upstream req with
      | .success st hs rb =>
          ⟨⟨st, hs.filter (fun kv => ! dropRespHeader kv.1), rb⟩,
            request_json, some (decodeResponse gz utf8 jl rb), some req⟩
      | .httpError code _ eb =>
          ⟨⟨code, [("Content-Type", "application/json")], eb⟩,
            request_json, some (decodeHttpError utf8 jl lossy eb), some req⟩
      | .failure msg =>
          ⟨⟨500, [], []⟩, request_json, some (.obj [("error", .str msg)]), some req⟩

/-- One line of log.jsonl as written at proxy.py:101:
`json.dumps({'request': r, 'response': v}) + "\n"`. -/
def entryLine (r : String) (v : JVal) : String :=
  dumps (.obj [("request", .str r), ("response", v)]) ++ "\n"

/-- The logging tail of `proxy_request`, proxy.py:98-101: append one
line to log.jsonl (opened in mode `"a"`), skipped when `response_json`
is still `None`. -/
def appendLog (log : List String) (o : ProxyOutcome) : List String :=
  match o.response_json with
  | none => log
  | some v => log ++ [entryLine o.request_json v]

/-- One whole handled request: run `proxy_request`, then append its log
line. -/
def handleRequest (target : String) (gz : List Nat → Except String (List Nat))
    (utf8 : List Nat → Option String) (jl : String → Option JVal)
    (lossy : List Nat → String) (upstream : OutboundRequest → UpstreamResult)
    (log : List String) (inb : Inbound) : List String :=
  appendLog log (proxy_request target gz utf8 jl lossy upstream inb)

/-- The relay's lifetime: a sequence of handled requests folded over the
log file. -/
def processAll (target : String) (gz : List Nat → Except String (List Nat))
    (utf8 : List Nat → Option String) (jl : String → Option JVal)
    (lossy : List Nat → String) (upstream : OutboundRequest → UpstreamResult)
    (log : List String) (inbs : List Inbound) : List String :=
  inbs.foldl (handleRequest target gz utf8 jl lossy upstream) log

/-! ## Model of `WebSocketManager` (src/dashboard.py) -/

/-- Whether the first list starts with the second. -/
def listStartsWith : List Char → List Char → Bool
  | _, [] => true
  | [], _ :: _ => false
  | a :: as, b :: bs => a == b && listStartsWith as bs

/-- Python substring test `pat in s` on character lists. -/
def listHasInfix (pat : List Char) : List Char → Bool
  | [] => pat.isEmpty
  | c :: rest => listStartsWith (c :: rest) pat || listHasInfix pat rest

/-- Python `'timestamp' in entry` / `'timestamp' not in entry` on a
parsed JSON value (dashboard.py:100 and :123).  On a dict it is a key
test, on a list an element test (`==` against the string), on a string
a substring test; on any other value it raises `TypeError`, modelled as
`.error ()`. -/
def pyContainsTimestamp : JVal → Except Unit Bool
  | .obj kvs => .ok (kvs.any (fun kv => kv.1 == "timestamp"))
  | .arr xs =>
      .ok (xs.any (fun x =>
        match x with
        | .str s => s == "timestamp"
        | _ => false))
  | .str s => .ok (listHasInfix "timestamp".toList s.toList)
  | _ => .error ()

/-- Lines 100-101 / 123-124 of dashboard.py: add a `timestamp` field
when the membership test says it is absent.  The assignment
`entry['timestamp'] = ...` itself raises `TypeError` on a non-dict. -/
def addTimestamp (now : String) (e : JVal) : Except Unit JVal :=
  match pyContainsTimestamp e with
  | .error _ => .error ()
  | .ok true => .ok e
  | .ok false =>
      match e with
      | .obj kvs => .ok (.obj (kvs ++ [("timestamp", .str now)]))
      | _ => .error ()

/-- The loop body of `get_all_log_entries`, dashboard.py:117-127, with
`acc` the `entries` list built so far (reversed).  A `JSONDecodeError`
is skipped by the inner `except`; any other exception (the `TypeError`
from the timestamp handling) escapes to the outer `except`, which
returns the entries accumulated so far. -/
def getAllGo (jl : String → Option JVal) (now : String) :
    List String → List JVal → List JVal
  | [], acc => acc.reverse
  | l :: rest, acc =>
      let s := pyStrip l
      if s == "" then getAllGo jl now rest acc
      else
        match jl s with
        | none => getAllGo jl now rest acc
        | some e =>
            match addTimestamp now e with
            | .error _ => acc.reverse
            | .ok e2 => getAllGo jl now rest (e2 :: acc)

/-- `WebSocketManager.get_all_log_entries`, dashboard.py:109-132.
`file = none` models a missing log.jsonl. -/
def get_all_log_entries (jl : String → Option JVal) (now : String)
    (file : Option (List String)) : List JVal :=
  match file with
  | none => []
  | some lines => getAllGo jl now lines []

/-- The stripped content of the last line whose stripped content is
non-empty - the line `get_latest_log_entry` settles on
(dashboard.py:95-97). -/
def lastNonEmpty : List String → Option String
  | [] => none
  | l :: rest =>
      match lastNonEmpty rest with
      | some s => some s
      | none =>
          let s := pyStrip l
          if s == "" then none else some s

/-- `WebSocketManager.get_latest_log_entry`, dashboard.py:83-107.
Any exception while parsing the chosen line (invalid JSON, or the
`TypeError` of the timestamp handling) is caught by the outer `except`
and yields `none`. -/
def get_latest_log_entry (jl : String → Option JVal) (now : String)
    (file : Option (List String)) : Option JVal :=
  match file with
  | none => none
  | some lines =>
      match lastNonEmpty lines with
      | none => none
      | some s =>
          match jl s with
          | none => none
          | some e =>
              match addTimestamp now e with
              | .error _ => none
              | .ok e2 => some e2

/-- A viewer connection's identity. -/
abbrev Viewer := Nat

/-- A message pushed over the WebSocket, dashboard.py:50-54 and 72-75. -/
inductive WsMessage where
  | initial (entries : List JVal) (total : Nat)
  | update (entry : JVal)

/-- `WebSocketManager.disconnect`, dashboard.py:58-60: remove the first
occurrence when present, no error otherwise. -/
def disconnect (conns : List Viewer) (w : Viewer) : List Viewer :=
  if w ∈ conns then conns.erase w else conns

/-- Result of an operation on the connection registry: the new
`active_connections` list and the sends that were attempted, in order
(the message content is recorded even when the send fails). -/
structure HubResult where
  conns : List Viewer
  attempts : List (Viewer × WsMessage)

/-- `WebSocketManager.connect`, dashboard.py:44-56: register, build the
snapshot, attempt one `initial` send, and unregister on failure. -/
def connect (sendOk : Viewer → WsMessage → Bool) (jl : String → Option JVal)
    (now : String) (file : Option (List String)) (conns : List Viewer)
    (w : Viewer) : HubResult :=
  let conns1 := conns ++ [w]
  let entries := get_all_log_entries jl now file
  let msg := WsMessage.initial entries entries.length
  if sendOk w msg then ⟨conns1, [(w, msg)]⟩
  else ⟨disconnect conns1 w, [(w, msg)]⟩

/-- `WebSocketManager.broadcast_latest_log`, dashboard.py:62-81:
return immediately when no one is connected; otherwise read the latest
entry and, when there is one, attempt an `update` send to every
registered connection in order, collect the failures, and disconnect
them after the pass. -/
def broadcast_latest_log (sendOk : Viewer → WsMessage → Bool)
    (jl : String → Option JVal) (now : String) (file : Option (List String))
    (conns : List Viewer) : HubResult :=
  if conns.isEmpty then ⟨conns, []⟩
  else
    match get_latest_log_entry jl now file with
    | none => ⟨conns, []⟩
    | some entry =>
        let msg := WsMessage.update entry
        let disconnected := conns.filter (fun c => ! sendOk c msg)
        ⟨disconnected.foldl (fun cs c => disconnect cs c) conns,
          conns.map (fun c => (c, msg))⟩

/-! ## Claim-side definitions and shared helpers for the theorems -/

/-- The decode policy exactly as the specification words it for
successful responses: if the body has the gzip magic bytes it is first
decompressed, then UTF-8-decoded, then JSON-parsed, with the four
fallback shapes in order of precedence.  To be compared with
`decodeResponse`, which is translated from proxy.py:55-68. -/
def decodePolicyClaim (gz : List Nat → Except String (List Nat))
    (utf8 : List Nat → Option String) (jl : String → Option JVal)
    (body : List Nat) : JVal :=
  let decompressed : Except PyExc (List Nat) :=
    if gzipMagic body then
      match gz body with
      | .ok db => .ok db
      | .error m => .error (.other m)
    else .ok body
  let text : Except PyExc String :=
    match decompressed with
    | .error ex => .error ex
    | .ok bs =>
        match utf8 bs with
        | some t => .ok t
        | none => .error .unicode
  match text with
  | .ok t =>
      match jl t with
      | some v => v
      | none => .obj [("raw_response", .str t)]
  | .error .unicode =>
      .obj [("error", .str "Binary response received"), ("raw_bytes", .num (body.length : Int))]
  | .error (.other m) =>
      .obj [("error", .str ("Decoding error: " ++ m)), ("raw_bytes", .num (body.length : Int))]

/-- The timestamp annotation applied to a parsed JSON object by the
readers (dashboard.py:100-101 and 123-124): keep an existing
`timestamp` field, otherwise append one. -/
def tsObj (now : String) : JVal → JVal
  | .obj kvs =>
      if kvs.any (fun kv => kv.1 == "timestamp") then .obj kvs
      else .obj (kvs ++ [("timestamp", .str now)])
  | v => v

/-- The JSON-parsing lines of a log file, in file order: each line is
stripped, blank lines are dropped, and the remaining lines are kept
when `json.loads` succeeds on them. -/
def parsedLines (jl : String → Option JVal) (lines : List String) : List JVal :=
  lines.filterMap (fun l =>
    let s := pyStrip l
    if s == "" then none else jl s)

/-! ## Concrete instances used by witnesses and counterexamples.
The oracles below agree with the real Python library functions at every
point where a theorem evaluates them: `json.loads` succeeds exactly on
the listed JSON texts with the listed parses, bytes `68 69` are the
UTF-8 text `"hi"`, and byte `255` alone is invalid UTF-8. -/

/-- The log line `{"request": "a", "response": 1}`. -/
def objLineA : String :=
  "\x7b\"request\": \"a\", \"response\": 1\x7d"

/-- `json.loads` of `objLineA`. -/
def objA : JVal := .obj [("request", .str "a"), ("response", .num 1)]

/-- The log line `{"x": 2}`. -/
def objLineX : String := "\x7b\"x\": 2\x7d"

/-- `json.loads` of `objLineX`. -/
def objX : JVal := .obj [("x", .num 2)]

/-- Concrete `json.loads`: defined at the texts the theorems use,
failing (as the real function does) on the non-JSON texts among them. -/
def jlC (s : String) : Option JVal :=
  if s == objLineA then some objA
  else if s == objLineX then some objX
  else if s == "5" then some (.num 5)
  else none

/-- Concrete strict UTF-8 decode: `68 69` is `"hi"`, the lone byte
`255` is invalid UTF-8, the empty byte string is `""`. -/
def utf8C (bs : List Nat) : Option String :=
  if bs == [104, 105] then some "hi"
  else if bs == [255] then none
  else if bs == [] then some ""
  else none

/-- Concrete lossy UTF-8 decode (`errors="ignore"`), agreeing with
`utf8C` where that succeeds and dropping the invalid byte. -/
def lossyC (bs : List Nat) : String :=
  if bs == [104, 105] then "hi"
  else ""

/-- Concrete `gzip.decompress`: never consulted by the theorems (no
evaluated body carries the magic bytes), failing like the real function
does on non-gzip data. -/
def gzC (_bs : List Nat) : Except String (List Nat) :=
  .error "Not a gzipped file"

/-- A send oracle for which every send succeeds. -/
def sendOkAll (_w : Viewer) (_m : WsMessage) : Bool := true

/-- A send oracle for which exactly viewer 1's sends fail. -/
def sendOkFail1 (w : Viewer) (_m : WsMessage) : Bool := w != 1

/-- A fixed read-time timestamp string. -/
def nowC : String := "2026-10-12T12:00:00"

/-- A concrete inbound POST with body `hi` and a valid Content-Length. -/
def inbPost : Inbound :=
  ⟨"POST", "/v1/chat",
    [("Content-Length", "2"), ("Host", "localhost"), ("Accept", "*/*")],
    [104, 105]⟩

/-- A concrete inbound request whose Content-Length header is not an
integer. -/
def inbBadCL : Inbound := ⟨"GET", "/", [("Content-Length", "abc")], []⟩

/-- A concrete inbound POST carrying the header name `X-A` twice
(legal and common in HTTP), besides the hop-by-hop headers. -/
def inbDup : Inbound :=
  ⟨"POST", "/p",
    [("X-A", "1"), ("X-A", "2"), ("Content-Length", "2"), ("Host", "h")],
    [104, 105]⟩

/-! ## Claims C1-C3: response passthrough and decode policy -/

/-- The decode chain translated from proxy.py:55-68 computes exactly
the policy as the specification words it. -/
theorem decodeResponse_eq_policy (gz : List Nat → Except String (List Nat))
    (utf8 : List Nat → Option String) (jl : String → Option JVal)
    (body : List Nat) :
    decodeResponse gz utf8 jl body = decodePolicyClaim gz utf8 jl body := by
  unfold decodeResponse decodePolicyClaim decodeStage
  cases hm : gzipMagic body
  · cases hu : utf8 body <;> simp [hm, hu]
  · cases hg : gz body with
    | error m => simp [hm, hg]
    | ok db => cases hu : utf8 db <;> simp [hm, hg, hu]

/-- **C2**: for every successful upstream response body, the logged
response value (`response_json`) is computed by the exact claimed
precedence: gzip magic check and decompression first, then UTF-8
decode, then JSON parse, with the four fallback shapes
(`decodePolicyClaim` transcribes the claim's wording). -/
theorem c2_success_decode_policy
    (target : String) (gz : List Nat → Except String (List Nat))
    (utf8 : List Nat → Option String) (jl : String → Option JVal)
    (lossy : List Nat → String) (st : Nat) (hs : List (String × String))
    (rb : List Nat) (inb : Inbound) (cl : Int)
    (h : readContentLength inb.headers = .ok cl) :
    (proxy_request target gz utf8 jl lossy
        (fun _ => UpstreamResult.success st hs rb) inb).response_json
      = some (decodePolicyClaim gz utf8 jl rb) := by
  simp [proxy_request, h, decodeResponse_eq_policy]

/-- Witness for C2 at a concrete run: a non-gzip body `68 69` that is
valid UTF-8 (`"hi"`) but not JSON falls to the `raw_response` shape. -/
theorem c2_witness :
    (proxy_request "http://u" gzC utf8C jlC lossyC
        (fun _ => UpstreamResult.success 200 [] [104, 105]) inbPost).response_json
      = some (.obj [("raw_response", .str "hi")]) := by
  have h := c2_success_decode_policy "http://u" gzC utf8C jlC lossyC
    200 [] [104, 105] inbPost 2 (by rfl)
  rw [h]
  rfl

/-- **C1** (amended): on a successful upstream response the caller
receives the upstream's status, the upstream's headers with only
`Connection` and `Transfer-Encoding` removed, and the body bytes
unmodified; on an upstream HTTP error the caller receives the
upstream's status code and body bytes unmodified, but the headers are
replaced by the single header `Content-Type: application/json`. -/
theorem c1_passthrough
    (target : String) (gz : List Nat → Except String (List Nat))
    (utf8 : List Nat → Option String) (jl : String → Option JVal)
    (lossy : List Nat → String) (inb : Inbound) (cl : Int)
    (h : readContentLength inb.headers = .ok cl) :
    (∀ st hs rb,
      (proxy_request target gz utf8 jl lossy
          (fun _ => UpstreamResult.success st hs rb) inb).sent
        = ⟨st, hs.filter (fun kv => ! dropRespHeader kv.1), rb⟩)
  ∧ (∀ code ehs eb,
      (proxy_request target gz utf8 jl lossy
          (fun _ => UpstreamResult.httpError code ehs eb) inb).sent
        = ⟨code, [("Content-Type", "application/json")], eb⟩) := by
  constructor
  · intro st hs rb; simp [proxy_request, h]
  · intro code ehs eb; simp [proxy_request, h]

/-- Counterexample to C1 as stated: for an upstream HTTP error response
carrying the header `X-Foo: bar`, the claim requires the caller to see
that header (it is neither `Connection` nor `Transfer-Encoding`), but
the code sends only `Content-Type: application/json`. -/
theorem c1_counterexample :
    (proxy_request "http://u" gzC utf8C jlC lossyC
        (fun _ => UpstreamResult.httpError 404 [("X-Foo", "bar")] [104, 105])
        inbPost).sent.headers
      = [("Content-Type", "application/json")]
  ∧ [("X-Foo", "bar")].filter (fun kv => ! dropRespHeader kv.1) = [("X-Foo", "bar")]
  ∧ ([("Content-Type", "application/json")] : List (String × String))
      ≠ [("X-Foo", "bar")] := by
  exact ⟨rfl, rfl, by decide⟩

/-- Witness for C1 (amended) at a concrete run: status, filtered
headers (the upstream `Connection` header is dropped, `X-A` survives)
and raw body reach the caller. -/
theorem c1_witness :
    (proxy_request "http://u" gzC utf8C jlC lossyC
        (fun _ => UpstreamResult.success 200
          [("Connection", "close"), ("X-A", "b")] [104, 105]) inbPost).sent
      = ⟨200, [("X-A", "b")], [104, 105]⟩ := by
  have h := (c1_passthrough "http://u" gzC utf8C jlC lossyC inbPost 2 (by rfl)).1
    200 [("Connection", "close"), ("X-A", "b")] [104, 105]
  rw [h]
  rfl

/-- **C3** (amended): on an upstream HTTP error the logged value is
computed by the error-path policy of proxy.py:80-86, which differs from
the success policy: there is no gzip magic check; a strict UTF-8 decode
is followed by a JSON parse; valid JSON logs the parsed value; valid
UTF-8 that is not valid JSON logs `{"error": <lossily decoded body>}`
(not `{"raw_response": ...}`); invalid UTF-8 logs the binary marker
with the byte count. -/
theorem c3_error_decode
    (target : String) (gz : List Nat → Except String (List Nat))
    (utf8 : List Nat → Option String) (jl : String → Option JVal)
    (lossy : List Nat → String) (inb : Inbound) (cl : Int)
    (h : readContentLength inb.headers = .ok cl)
    (code : Nat) (ehs : List (String × String)) (eb : List Nat) :
    ((proxy_request target gz utf8 jl lossy
        (fun _ => UpstreamResult.httpError code ehs eb) inb).response_json
      = some (decodeHttpError utf8 jl lossy eb))
  ∧ (utf8 eb = none →
      decodeHttpError utf8 jl lossy eb
        = .obj [("error", .str "Binary response received"),
                ("raw_bytes", .num (eb.length : Int))])
  ∧ (∀ t v, utf8 eb = some t → jl t = some v →
      decodeHttpError utf8 jl lossy eb = v)
  ∧ (∀ t, utf8 eb = some t → jl t = none →
      decodeHttpError utf8 jl lossy eb = .obj [("error", .str (lossy eb))]) := by
  refine ⟨by simp [proxy_request, h], ?_, ?_, ?_⟩
  · intro hu; simp [decodeHttpError, hu]
  · intro t v hu hj; simp [decodeHttpError, hu, hj]
  · intro t hu hj; simp [decodeHttpError, hu, hj]

/-- Counterexample to C3 as stated: the error body `68 69` (`"hi"`,
valid UTF-8 but not JSON) is logged as `{"error": "hi"}`, while the
success-path policy the claim promises would log
`{"raw_response": "hi"}` - and no value of the `raw_response` shape
equals the logged one. -/
theorem c3_counterexample :
    (proxy_request "http://u" gzC utf8C jlC lossyC
        (fun _ => UpstreamResult.httpError 404 [] [104, 105]) inbPost).response_json
      = some (.obj [("error", .str "hi")])
  ∧ decodeResponse gzC utf8C jlC [104, 105] = .obj [("raw_response", .str "hi")]
  ∧ ∀ t, (JVal.obj [("error", .str "hi")]) ≠ (JVal.obj [("raw_response", t)]) := by
  refine ⟨rfl, rfl, ?_⟩
  intro t h
  simp at h

/-- Witness for C3 (amended) at a concrete run: the invalid-UTF-8 error
body `FF` is logged as the binary marker with its byte count. -/
theorem c3_witness :
    (proxy_request "http://u" gzC utf8C jlC lossyC
        (fun _ => UpstreamResult.httpError 500 [] [255]) inbPost).response_json
      = some (.obj [("error", .str "Binary response received"), ("raw_bytes", .num 1)]) := by
  have h := c3_error_decode "http://u" gzC utf8C jlC lossyC inbPost 2 (by rfl) 500 [] [255]
  rw [h.1, h.2.1 (by rfl)]
  rfl

/-! ## Claims C4, C5, C10: outbound request, record log, early failure -/

/-- Keys produced by `dictInsert` satisfy any predicate that its input
keys and the inserted key satisfy. -/
theorem dictInsert_keys_pred (q : String → Bool) (d : List (String × String))
    (k v : String) (hd : ∀ kv ∈ d, q kv.1 = true) (hk : q k = true) :
    ∀ kv ∈ dictInsert d k v, q kv.1 = true := by
  intro kv hkv
  unfold dictInsert at hkv
  split at hkv
  · obtain ⟨kv0, hkv0, heq⟩ := List.mem_map.mp hkv
    have hkeq : kv.1 = kv0.1 := by
      rw [← heq]
      split <;> rfl
    rw [hkeq]
    exact hd kv0 hkv0
  · rcases List.mem_append.mp hkv with h1 | h1
    · exact hd kv h1
    · simp only [List.mem_singleton] at h1
      subst h1
      exact hk

theorem dictOfItems_keys_pred_aux (q : String → Bool) :
    ∀ (items d : List (String × String)),
    (∀ kv ∈ d, q kv.1 = true) → (∀ kv ∈ items, q kv.1 = true) →
    ∀ kv ∈ items.foldl (fun d kv => dictInsert d kv.1 kv.2) d, q kv.1 = true := by
  intro items
  induction items with
  | nil => intro d hd _ kv hkv; exact hd kv hkv
  | cons i is ih =>
      intro d hd hitems kv hkv
      simp only [List.foldl_cons] at hkv
      refine ih (dictInsert d i.1 i.2) ?_ ?_ kv hkv
      · exact dictInsert_keys_pred q d i.1 i.2 hd (hitems i (by simp))
      · intro kv2 hkv2
        exact hitems kv2 (by simp [hkv2])

/-- Keys of the dict built from a list of items satisfy any predicate
all the item keys satisfy. -/
theorem dictOfItems_keys_pred (q : String → Bool) (items : List (String × String))
    (hitems : ∀ kv ∈ items, q kv.1 = true) :
    ∀ kv ∈ dictOfItems items, q kv.1 = true :=
  dictOfItems_keys_pred_aux q items [] (by intro kv hkv; simp at hkv) hitems

/-- An in-place update does not change the value found under a
different key. -/
theorem dictFind_map_update_ne (k2 v2 k : String) (h : ¬(k2 = k)) :
    ∀ d : List (String × String),
    dictFind (d.map (fun kv => if kv.1 == k2 then (kv.1, v2) else kv)) k
      = dictFind d k := by
  intro d
  induction d with
  | nil => rfl
  | cons a d ih =>
      simp only [List.map_cons]
      by_cases hak2 : a.1 = k2
      · have hak : ¬(a.1 = k) := fun hh => h (hak2.symm.trans hh)
        rw [if_pos (beq_iff_eq.mpr hak2)]
        simp only [dictFind]
        rw [if_neg (by simp [hak]), if_neg (by simp [hak])]
        exact ih
      · rw [if_neg (by simp [hak2])]
        simp only [dictFind]
        by_cases hak : a.1 = k
        · rw [if_pos (by simp [hak]), if_pos (by simp [hak])]
        · rw [if_neg (by simp [hak]), if_neg (by simp [hak])]
          exact ih

/-- An in-place update of a present key is what lookup then finds. -/
theorem dictFind_map_update_eq (k2 v2 : String) :
    ∀ d : List (String × String), hasKey d k2 = true →
    dictFind (d.map (fun kv => if kv.1 == k2 then (kv.1, v2) else kv)) k2
      = some v2 := by
  intro d
  induction d with
  | nil => intro h; simp [hasKey] at h
  | cons a d ih =>
      intro h
      simp only [List.map_cons]
      by_cases hak2 : a.1 = k2
      · rw [if_pos (beq_iff_eq.mpr hak2)]
        simp only [dictFind]
        rw [if_pos (beq_iff_eq.mpr hak2)]
      · rw [if_neg (by simp [hak2])]
        simp only [dictFind]
        rw [if_neg (by simp [hak2])]
        apply ih
        simp only [hasKey, List.any_cons, Bool.or_eq_true] at h
        rcases h with h1 | h1
        · exact absurd (by simpa using h1) hak2
        · exact h1

/-- Appending a pair under a fresh key does not change other lookups. -/
theorem dictFind_append_single_ne (k2 v2 k : String) (h : ¬(k2 = k)) :
    ∀ d : List (String × String),
    dictFind (d ++ [(k2, v2)]) k = dictFind d k := by
  intro d
  induction d with
  | nil => simp [dictFind, h]
  | cons a d ih =>
      simp only [List.cons_append, dictFind]
      by_cases hak : a.1 = k
      · rw [if_pos (by simp [hak]), if_pos (by simp [hak])]
      · rw [if_neg (by simp [hak]), if_neg (by simp [hak])]
        exact ih

/-- Appending a pair under a key the mapping lacks makes lookup find
it. -/
theorem dictFind_append_single_eq (k v2 : String) :
    ∀ d : List (String × String), hasKey d k = false →
    dictFind (d ++ [(k, v2)]) k = some v2 := by
  intro d
  induction d with
  | nil => intro _; simp [dictFind]
  | cons a d ih =>
      intro h
      simp only [hasKey, List.any_cons, Bool.or_eq_false_iff] at h
      simp only [List.cons_append, dictFind]
      rw [if_neg (by simp [h.1])]
      exact ih h.2

/-- `dictInsert` as lookup sees it: the inserted key now maps to the
new value, every other key is untouched. -/
theorem dictFind_dictInsert (d : List (String × String)) (k2 v2 k : String) :
    dictFind (dictInsert d k2 v2) k = if k2 = k then some v2 else dictFind d k := by
  unfold dictInsert
  by_cases hk : hasKey d k2 = true
  · rw [if_pos hk]
    by_cases hkk : k2 = k
    · subst hkk
      rw [if_pos rfl]
      exact dictFind_map_update_eq k2 v2 d hk
    · rw [if_neg hkk]
      exact dictFind_map_update_ne k2 v2 k hkk d
  · rw [if_neg hk]
    by_cases hkk : k2 = k
    · subst hkk
      rw [if_pos rfl]
      exact dictFind_append_single_eq k2 v2 d (by simpa using hk)
    · rw [if_neg hkk]
      exact dictFind_append_single_ne k2 v2 k hkk d

theorem dictOfItems_append_single (items : List (String × String))
    (j : String × String) :
    dictOfItems (items ++ [j]) = dictInsert (dictOfItems items) j.1 j.2 := by
  simp [dictOfItems, List.foldl_append]

theorem lastValue_append_single (items : List (String × String))
    (j : String × String) (k : String) :
    lastValue (items ++ [j]) k = if j.1 = k then some j.2 else lastValue items k := by
  unfold lastValue
  rw [List.filter_append]
  by_cases hj : j.1 = k
  · rw [if_pos hj, show List.filter (fun kv => kv.1 == k) [j] = [j] from by simp [hj]]
    simp
  · rw [if_neg hj, show List.filter (fun kv => kv.1 == k) [j] = [] from by simp [hj]]
    simp

/-- The dict built from a list of items maps each key to the last value
the items carried for it - Python's duplicate-name collapsing. -/
theorem dictFind_dictOfItems (items : List (String × String)) (k : String) :
    dictFind (dictOfItems items) k = lastValue items k := by
  induction items using List.reverseRecOn with
  | nil => rfl
  | append_singleton l j ih =>
      rw [dictOfItems_append_single, dictFind_dictInsert,
        lastValue_append_single, ih]

/-- A key the request-header filter lets through is none of the three
dropped names. -/
theorem not_dropReqHeader_elim (s : String) (h : (! dropReqHeader s) = true) :
    ¬(pyLower s = "host") ∧ ¬(pyLower s = "connection")
      ∧ ¬(pyLower s = "content-length") := by
  simp only [Bool.not_eq_true', dropReqHeader, Bool.or_eq_false_iff,
    beq_eq_false_iff_ne] at h
  exact ⟨h.1.1, h.1.2, h.2⟩

/-- The dict of the filtered inbound headers has no `Content-Length`
key (any case variant of the name was dropped before the dict was
built). -/
theorem dictOfItems_filtered_no_cl (inb : Inbound) :
    hasKey (dictOfItems (inb.headers.filter (fun kv => ! dropReqHeader kv.1)))
      "Content-Length" = false := by
  have hq := dictOfItems_keys_pred (fun s => ! dropReqHeader s)
    (inb.headers.filter (fun kv => ! dropReqHeader kv.1))
    (fun kv hkv => (List.mem_filter.mp hkv).2)
  by_contra hcontra
  have htrue : hasKey (dictOfItems (inb.headers.filter (fun kv => ! dropReqHeader kv.1)))
      "Content-Length" = true := by
    simpa using hcontra
  obtain ⟨kv, hkv, hkv2⟩ := List.any_eq_true.mp htrue
  have h3 := (not_dropReqHeader_elim kv.1 (hq kv hkv)).2.2
  apply h3
  rw [show kv.1 = "Content-Length" from by simpa using hkv2]
  rfl

/-- The two shapes `buildOutbound`'s headers take, by body emptiness. -/
theorem buildOutbound_headers (target : String) (inb : Inbound) (body : List Nat) :
    (body = [] → (buildOutbound target inb body).headers
        = dictOfItems (inb.headers.filter (fun kv => ! dropReqHeader kv.1)))
  ∧ (body ≠ [] → (buildOutbound target inb body).headers
        = dictOfItems (inb.headers.filter (fun kv => ! dropReqHeader kv.1))
            ++ [("Content-Length", toString body.length)]) := by
  constructor
  · intro hb
    subst hb
    simp [buildOutbound]
  · intro hb
    have hEmpty : body.isEmpty = false := by
      cases body
      · exact absurd rfl hb
      · rfl
    simp only [buildOutbound, hEmpty, Bool.false_eq_true, if_false]
    unfold dictInsert
    rw [if_neg (by simp [dictOfItems_filtered_no_cl inb])]

/-- **C4** (amended): the outbound request uses the inbound method, the
upstream base concatenated with the inbound path (and query string,
which `self.path` carries) verbatim, and as headers the Python dict
built from the inbound headers with `Host`, `Connection` and the
original `Content-Length` removed (case-insensitively) - so a repeated
header name is collapsed to its last inbound value - plus a recomputed
`Content-Length` equal to the body's byte length appended exactly when
the body is non-empty. -/
theorem c4_outbound
    (target : String) (gz : List Nat → Except String (List Nat))
    (utf8 : List Nat → Option String) (jl : String → Option JVal)
    (lossy : List Nat → String) (upstream : OutboundRequest → UpstreamResult)
    (inb : Inbound) (cl : Int)
    (h : readContentLength inb.headers = .ok cl) :
    ((proxy_request target gz utf8 jl lossy upstream inb).outbound
        = some (buildOutbound target inb (requestBody cl inb)))
  ∧ (buildOutbound target inb (requestBody cl inb)).method = inb.command
  ∧ (buildOutbound target inb (requestBody cl inb)).url = target ++ inb.path
  ∧ (buildOutbound target inb (requestBody cl inb)).data = requestBody cl inb
  ∧ (∀ kv ∈ (buildOutbound target inb (requestBody cl inb)).headers,
      ¬(pyLower kv.1 = "host") ∧ ¬(pyLower kv.1 = "connection"))
  ∧ (requestBody cl inb = [] →
      (buildOutbound target inb (requestBody cl inb)).headers
        = dictOfItems (inb.headers.filter (fun kv => ! dropReqHeader kv.1)))
  ∧ (requestBody cl inb = [] →
      ∀ kv ∈ (buildOutbound target inb (requestBody cl inb)).headers,
        ¬(pyLower kv.1 = "content-length"))
  ∧ (requestBody cl inb ≠ [] →
      (buildOutbound target inb (requestBody cl inb)).headers
        = dictOfItems (inb.headers.filter (fun kv => ! dropReqHeader kv.1))
            ++ [("Content-Length", toString (requestBody cl inb).length)])
  ∧ (∀ k, ¬(pyLower k = "content-length") →
      dictFind (buildOutbound target inb (requestBody cl inb)).headers k
        = lastValue (inb.headers.filter (fun kv => ! dropReqHeader kv.1)) k) := by
  have hBO := buildOutbound_headers target inb (requestBody cl inb)
  have hq := dictOfItems_keys_pred (fun s => ! dropReqHeader s)
    (inb.headers.filter (fun kv => ! dropReqHeader kv.1))
    (fun kv hkv => (List.mem_filter.mp hkv).2)
  refine ⟨?_, by simp [buildOutbound], by simp [buildOutbound], by simp [buildOutbound],
    ?_, hBO.1, ?_, hBO.2, ?_⟩
  · cases hu : upstream (buildOutbound target inb (requestBody cl inb)) <;>
      simp [proxy_request, h, hu]
  · intro kv hkv
    by_cases hb : requestBody cl inb = []
    · rw [hBO.1 hb] at hkv
      have h3 := not_dropReqHeader_elim kv.1 (hq kv hkv)
      exact ⟨h3.1, h3.2.1⟩
    · rw [hBO.2 hb] at hkv
      rcases List.mem_append.mp hkv with h1 | h1
      · have h3 := not_dropReqHeader_elim kv.1 (hq kv h1)
        exact ⟨h3.1, h3.2.1⟩
      · simp only [List.mem_singleton] at h1
        subst h1
        constructor
        · show ¬(pyLower "Content-Length" = "host")
          decide
        · show ¬(pyLower "Content-Length" = "connection")
          decide
  · intro hb kv hkv
    rw [hBO.1 hb] at hkv
    exact (not_dropReqHeader_elim kv.1 (hq kv hkv)).2.2
  · intro k hk
    by_cases hb : requestBody cl inb = []
    · rw [hBO.1 hb]
      exact dictFind_dictOfItems _ k
    · rw [hBO.2 hb]
      rw [dictFind_append_single_ne "Content-Length" _ k
        (fun he => hk (by rw [← he]; rfl))]
      exact dictFind_dictOfItems _ k

/-- Counterexample to C4 as stated: for an inbound request carrying
`X-A: 1` and then `X-A: 2`, the claim requires both headers (neither is
`Host`, `Connection` or `Content-Length`) to be forwarded, but the dict
comprehension at proxy.py:41 collapses them and the program forwards
only `X-A: 2`. -/
theorem c4_counterexample :
    (proxy_request "http://u" gzC utf8C jlC lossyC
        (fun _ => UpstreamResult.success 200 [] []) inbDup).outbound
      = some (buildOutbound "http://u" inbDup [104, 105])
  ∧ (buildOutbound "http://u" inbDup [104, 105]).headers
      = [("X-A", "2"), ("Content-Length", "2")]
  ∧ inbDup.headers.filter (fun kv => ! dropReqHeader kv.1)
      = [("X-A", "1"), ("X-A", "2")]
  ∧ ([("X-A", "2"), ("Content-Length", "2")] : List (String × String))
      ≠ [("X-A", "1"), ("X-A", "2"), ("Content-Length", "2")] := by
  exact ⟨rfl, rfl, rfl, by decide⟩

/-- Witness for C4 (amended) at a concrete run: for `inbPost` the
outbound request keeps `Accept` with its (only, hence last) value,
drops `Host`/`Content-Length`, and appends the recomputed
`Content-Length: 2`. -/
theorem c4_witness :
    (proxy_request "http://u" gzC utf8C jlC lossyC
        (fun _ => UpstreamResult.success 200 [] []) inbPost).outbound
      = some (buildOutbound "http://u" inbPost [104, 105])
  ∧ (buildOutbound "http://u" inbPost [104, 105]).headers
      = [("Accept", "*/*"), ("Content-Length", "2")]
  ∧ (buildOutbound "http://u" inbPost [104, 105]).url = "http://u/v1/chat"
  ∧ (buildOutbound "http://u" inbPost [104, 105]).method = "POST"
  ∧ dictFind (buildOutbound "http://u" inbPost [104, 105]).headers "Accept"
      = some "*/*" := by
  have h := c4_outbound "http://u" gzC utf8C jlC lossyC
    (fun _ => UpstreamResult.success 200 [] []) inbPost 2 (by rfl)
  have h9 := h.2.2.2.2.2.2.2.2 "Accept" (by decide)
  exact ⟨h.1, by rfl, by rfl, by rfl, h9.trans (by rfl)⟩

/-- Every run of `proxy_request` extends the log by zero or one lines
(here: always exactly the lines `appendLog` adds). -/
theorem handle_extends (target : String) (gz : List Nat → Except String (List Nat))
    (utf8 : List Nat → Option String) (jl : String → Option JVal)
    (lossy : List Nat → String) (upstream : OutboundRequest → UpstreamResult)
    (log : List String) (inb : Inbound) :
    ∃ s, handleRequest target gz utf8 jl lossy upstream log inb = log ++ s := by
  unfold handleRequest appendLog
  cases (proxy_request target gz utf8 jl lossy upstream inb).response_json
  · exact ⟨[], by simp⟩
  · exact ⟨_, rfl⟩

/-- **C5**: every handled request produces a response value (so the
defensive skip never fires), the log grows by exactly the one line
`json.dumps({"request": ..., "response": ...}) + "\n"` - a single line,
newline-terminated, with exactly one newline character - and over any
sequence of handled requests the log is only ever extended, so existing
lines are never rewritten and the line count never decreases. -/
theorem c5_record_log
    (target : String) (gz : List Nat → Except String (List Nat))
    (utf8 : List Nat → Option String) (jl : String → Option JVal)
    (lossy : List Nat → String) (upstream : OutboundRequest → UpstreamResult)
    (inb : Inbound) (log : List String) :
    (∃ v, (proxy_request target gz utf8 jl lossy upstream inb).response_json = some v)
  ∧ (∀ v, (proxy_request target gz utf8 jl lossy upstream inb).response_json = some v →
      handleRequest target gz utf8 jl lossy upstream log inb
        = log ++ [entryLine (proxy_request target gz utf8 jl lossy upstream inb).request_json v])
  ∧ (∀ r v, (entryLine r v).toList.count '\n' = 1
      ∧ (entryLine r v).toList.getLast? = some '\n')
  ∧ (∀ inbs : List Inbound, ∃ suffix,
      processAll target gz utf8 jl lossy upstream log inbs = log ++ suffix) := by
  refine ⟨?_, ?_, ?_, ?_⟩
  · unfold proxy_request
    cases h : readContentLength inb.headers with
    | error m => exact ⟨_, rfl⟩
    | ok cl =>
        cases hu : upstream (buildOutbound target inb (requestBody cl inb)) <;>
          simp [hu]
  · intro v hv
    simp [handleRequest, appendLog, hv]
  · intro r v
    have hdata : (entryLine r v).toList
        = dumpsV (.obj [("request", .str r), ("response", v)]) ++ ['\n'] := by
      simp [entryLine, dumps, String.data_append]
    constructor
    · rw [hdata, List.count_append]
      have h0 : List.count '\n' (dumpsV (.obj [("request", .str r), ("response", v)])) = 0 :=
        List.count_eq_zero.mpr (fun hmem => dumpsV_ne_nl _ '\n' hmem rfl)
      simp [h0]
    · rw [hdata]
      simp
  · intro inbs
    induction inbs generalizing log with
    | nil => exact ⟨[], by simp [processAll]⟩
    | cons i is ih =>
        obtain ⟨s1, h1⟩ := handle_extends target gz utf8 jl lossy upstream log i
        obtain ⟨s2, h2⟩ := ih (handleRequest target gz utf8 jl lossy upstream log i)
        refine ⟨s1 ++ s2, ?_⟩
        have : processAll target gz utf8 jl lossy upstream log (i :: is)
            = processAll target gz utf8 jl lossy upstream
                (handleRequest target gz utf8 jl lossy upstream log i) is := rfl
        rw [this, h2, h1, List.append_assoc]

/-- Witness for C5 at a concrete run: the successful `hi` exchange
appends exactly one line to an empty log, and that line holds exactly
one newline. -/
theorem c5_witness :
    handleRequest "http://u" gzC utf8C jlC lossyC
        (fun _ => UpstreamResult.success 200 [] [104, 105]) [] inbPost
      = [entryLine "hi" (.obj [("raw_response", .str "hi")])]
  ∧ (entryLine "hi" (.obj [("raw_response", .str "hi")])).toList.count '\n' = 1 := by
  have h := c5_record_log "http://u" gzC utf8C jlC lossyC
    (fun _ => UpstreamResult.success 200 [] [104, 105]) inbPost []
  exact ⟨(h.2.1 (.obj [("raw_response", .str "hi")]) (by rfl)).trans (by rfl),
    (h.2.2.1 "hi" (.obj [("raw_response", .str "hi")])).1⟩

/-- **C10**: when reading the declared content length raises before the
body is read (a non-integer `Content-Length`), the caller gets status
500 with no headers sent and an empty body, and the log still gains
exactly one entry with an empty `request` string and an
`{"error": <message>}` response - the same generic-failure path used
for upstream transport failures. -/
theorem c10_pre_body_failure
    (target : String) (gz : List Nat → Except String (List Nat))
    (utf8 : List Nat → Option String) (jl : String → Option JVal)
    (lossy : List Nat → String) (upstream : OutboundRequest → UpstreamResult)
    (inb : Inbound) (msg : String)
    (h : readContentLength inb.headers = .error msg) (log : List String) :
    proxy_request target gz utf8 jl lossy upstream inb
      = ⟨⟨500, [], []⟩, "", some (.obj [("error", .str msg)]), none⟩
  ∧ handleRequest target gz utf8 jl lossy upstream log inb
      = log ++ [entryLine "" (.obj [("error", .str msg)])] := by
  constructor
  · simp [proxy_request, h]
  · simp [handleRequest, appendLog, proxy_request, h]

/-- Witness for C10 at the concrete failing input
`Content-Length: abc`: the `int()` error message is logged and a bare
500 is sent. -/
theorem c10_witness :
    proxy_request "http://u" gzC utf8C jlC lossyC
        (fun _ => UpstreamResult.failure "unused") inbBadCL
      = ⟨⟨500, [], []⟩, "",
          some (.obj [("error",
            .str "invalid literal for int() with base 10: 'abc'")]), none⟩ := by
  exact (c10_pre_body_failure "http://u" gzC utf8C jlC lossyC
    (fun _ => UpstreamResult.failure "unused") inbBadCL
    "invalid literal for int() with base 10: 'abc'" (by rfl) []).1

/-! ## Claims C6-C9: log readers and broadcast -/

/-- On a parsed JSON object the timestamp handling of the readers never
raises and computes `tsObj`. -/
theorem addTimestamp_obj (now : String) (kvs : List (String × JVal)) :
    addTimestamp now (.obj kvs) = .ok (tsObj now (.obj kvs)) := by
  unfold addTimestamp pyContainsTimestamp tsObj
  cases h : kvs.any (fun kv => kv.1 == "timestamp") <;> simp [h]

/-- `tsObj` always leaves a `timestamp` key on an object. -/
theorem tsObj_has_ts (now : String) (kvs : List (String × JVal)) :
    ∃ kvs', tsObj now (.obj kvs) = .obj kvs'
      ∧ kvs'.any (fun kv => kv.1 == "timestamp") = true := by
  unfold tsObj
  cases h : kvs.any (fun kv => kv.1 == "timestamp")
  · exact ⟨kvs ++ [("timestamp", .str now)], by simp [h], by simp⟩
  · exact ⟨kvs, by simp [h], h⟩

/-- When every JSON-parsing line of the file parses to a JSON object,
the snapshot reader returns all parsed lines in file order, each passed
through the timestamp annotation. -/
theorem getAllGo_objs (jl : String → Option JVal) (now : String) :
    ∀ (lines : List String) (acc : List JVal),
    (∀ l ∈ lines, ∀ e, jl (pyStrip l) = some e → ∃ kvs, e = JVal.obj kvs) →
    getAllGo jl now lines acc = acc.reverse ++ (parsedLines jl lines).map (tsObj now) := by
  intro lines
  induction lines with
  | nil => intro acc H; simp [getAllGo, parsedLines]
  | cons l rest ih =>
      intro acc H
      have Hrest : ∀ l' ∈ rest, ∀ e, jl (pyStrip l') = some e → ∃ kvs, e = JVal.obj kvs :=
        fun l' hl' => H l' (by simp [hl'])
      cases hs : (pyStrip l == "")
      · have hs' : ¬(pyStrip l = "") := by simpa using hs
        cases hj : jl (pyStrip l) with
        | none =>
            rw [show getAllGo jl now (l :: rest) acc = getAllGo jl now rest acc by
              simp [getAllGo, hs, hj]]
            rw [ih acc Hrest]
            simp [parsedLines, List.filterMap_cons, hs', hj]
        | some e =>
            obtain ⟨kvs, hkvs⟩ := H l (by simp) e hj
            subst hkvs
            rw [show getAllGo jl now (l :: rest) acc
                = getAllGo jl now rest (tsObj now (.obj kvs) :: acc) by
              simp [getAllGo, hs, hj, addTimestamp_obj]]
            rw [ih (tsObj now (.obj kvs) :: acc) Hrest]
            simp [parsedLines, List.filterMap_cons, hs', hj]
      · have hs' : pyStrip l = "" := by simpa using hs
        rw [show getAllGo jl now (l :: rest) acc = getAllGo jl now rest acc by
          simp [getAllGo, hs]]
        rw [ih acc Hrest]
        simp [parsedLines, List.filterMap_cons, hs']

/-- **C8** (amended): when every JSON-parsing line of the RecordLog
parses to a JSON object (as every line the relay writes does), `connect`
registers the viewer and attempts exactly one `initial` message whose
`entries` are the parsed lines in file order - each carrying a
`timestamp` key, added at read time when absent - and whose `total`
equals the number of those lines; a successful send leaves the viewer
registered, a failed send unregisters it at once.  (When some line
parses to a non-object JSON value, the snapshot read aborts early
instead - see the counterexample.) -/
theorem c8_connect (sendOk : Viewer → WsMessage → Bool) (jl : String → Option JVal)
    (now : String) (lines : List String) (conns : List Viewer) (w : Viewer)
    (H : ∀ l ∈ lines, ∀ e, jl (pyStrip l) = some e → ∃ kvs, e = JVal.obj kvs) :
    ((connect sendOk jl now (some lines) conns w).attempts
      = [(w, WsMessage.initial ((parsedLines jl lines).map (tsObj now))
            (parsedLines jl lines).length)])
  ∧ get_all_log_entries jl now (some lines) = (parsedLines jl lines).map (tsObj now)
  ∧ (sendOk w (WsMessage.initial ((parsedLines jl lines).map (tsObj now))
        (parsedLines jl lines).length) = true →
      (connect sendOk jl now (some lines) conns w).conns = conns ++ [w])
  ∧ (sendOk w (WsMessage.initial ((parsedLines jl lines).map (tsObj now))
        (parsedLines jl lines).length) = false →
      (connect sendOk jl now (some lines) conns w).conns
        = disconnect (conns ++ [w]) w)
  ∧ (w ∉ conns →
      sendOk w (WsMessage.initial ((parsedLines jl lines).map (tsObj now))
        (parsedLines jl lines).length) = false →
      (connect sendOk jl now (some lines) conns w).conns = conns)
  ∧ (∀ e ∈ (parsedLines jl lines).map (tsObj now),
      ∃ kvs, e = JVal.obj kvs ∧ kvs.any (fun kv => kv.1 == "timestamp") = true) := by
  have hall : get_all_log_entries jl now (some lines)
      = (parsedLines jl lines).map (tsObj now) := by
    rw [show get_all_log_entries jl now (some lines) = getAllGo jl now lines [] from rfl]
    rw [getAllGo_objs jl now lines [] H]
    rfl
  have hlen : ((parsedLines jl lines).map (tsObj now)).length
      = (parsedLines jl lines).length := List.length_map _ _
  refine ⟨?_, hall, ?_, ?_, ?_, ?_⟩
  · simp only [connect, hall, hlen]
    split <;> rfl
  · intro hok
    simp only [connect, hall, hlen]
    rw [if_pos hok]
  · intro hfail
    simp only [connect, hall, hlen]
    rw [if_neg (by simp [hfail])]
  · intro hw hfail
    have hd : disconnect (conns ++ [w]) w = conns := by
      unfold disconnect
      rw [if_pos (by simp)]
      rw [List.erase_append_right _ hw]
      simp
    simp only [connect, hall, hlen]
    rw [if_neg (by simp [hfail]), hd]
  · intro e he
    obtain ⟨p, hp, hpe⟩ := List.mem_map.mp he
    obtain ⟨l, hl, hfl⟩ := List.mem_filterMap.mp hp
    have hjl : jl (pyStrip l) = some p := by
      by_cases hb : (pyStrip l == "") = true
      · simp [hb] at hfl
      · simpa [Bool.eq_false_iff.mpr hb] using hfl
    obtain ⟨kvs, hkvs⟩ := H l hl p hjl
    subst hkvs
    obtain ⟨kvs', h1, h2⟩ := tsObj_has_ts now kvs
    exact ⟨kvs', by rw [← hpe, h1], h2⟩

/-- Counterexample to C8 as stated: the file `5` + `objLineA` holds two
JSON-parsing lines (wellformed under the spec's reading; the second is
even a schema-shaped object), yet the snapshot message reports
`total = 0` with no entries: the line `5` parses but makes
`'timestamp' not in entry` raise `TypeError`, which the outer handler
turns into "return what was accumulated", dropping the rest of the
file. -/
theorem c8_counterexample :
    (connect sendOkAll jlC nowC (some ["5", objLineA]) [] 7).attempts
      = [(7, WsMessage.initial [] 0)]
  ∧ (parsedLines jlC ["5", objLineA]).length = 2
  ∧ jlC (pyStrip objLineA) = some objA := by
  exact ⟨rfl, rfl, rfl⟩

/-- Witness for C8 (amended) at a concrete state: one object line,
successful send - the viewer stays registered and receives the one
timestamped entry with `total = 1`. -/
theorem c8_witness :
    (connect sendOkAll jlC nowC (some [objLineA]) [] 3).attempts
      = [(3, WsMessage.initial
            [.obj [("request", .str "a"), ("response", .num 1),
                   ("timestamp", .str nowC)]] 1)]
  ∧ (connect sendOkAll jlC nowC (some [objLineA]) [] 3).conns = [3] := by
  have H : ∀ l ∈ [objLineA], ∀ e, jlC (pyStrip l) = some e →
      ∃ kvs, e = JVal.obj kvs := by
    intro l hl e he
    simp only [List.mem_singleton] at hl
    subst hl
    rw [show jlC (pyStrip objLineA) = some objA from rfl] at he
    injection he with he2
    exact ⟨[("request", .str "a"), ("response", .num 1)], he2.symm⟩
  have h := c8_connect sendOkAll jlC nowC [objLineA] [] 3 H
  exact ⟨h.1.trans (by rfl), (h.2.2.1 (by rfl)).trans (by rfl)⟩

/-- **C6** (amended): a growth notification makes the tailer consider
only the last line with non-blank stripped content.  When that line
parses to a JSON object, its parse (timestamp-annotated) is read and,
with at least one viewer connected, handed to the broadcast loop.
Nothing is delivered when the file is absent, when no line has
non-blank content, or when the last non-blank line fails to parse as
JSON - even if earlier well-formed lines exist. -/
theorem c6_tailer (sendOk : Viewer → WsMessage → Bool) (jl : String → Option JVal)
    (now : String) (lines : List String) (conns : List Viewer) :
    (∀ s kvs, lastNonEmpty lines = some s → jl s = some (.obj kvs) →
        get_latest_log_entry jl now (some lines) = some (tsObj now (.obj kvs))
      ∧ (conns ≠ [] →
          (broadcast_latest_log sendOk jl now (some lines) conns).attempts
            = conns.map (fun c => (c, WsMessage.update (tsObj now (.obj kvs))))))
  ∧ get_latest_log_entry jl now none = none
  ∧ (broadcast_latest_log sendOk jl now none conns).attempts = []
  ∧ (lastNonEmpty lines = none →
      (broadcast_latest_log sendOk jl now (some lines) conns).attempts = [])
  ∧ (∀ s, lastNonEmpty lines = some s → jl s = none →
        get_latest_log_entry jl now (some lines) = none
      ∧ (broadcast_latest_log sendOk jl now (some lines) conns).attempts = []) := by
  refine ⟨?_, rfl, ?_, ?_, ?_⟩
  · intro s kvs hlast hj
    have hget : get_latest_log_entry jl now (some lines) = some (tsObj now (.obj kvs)) := by
      simp [get_latest_log_entry, hlast, hj, addTimestamp_obj]
    refine ⟨hget, ?_⟩
    intro hc
    have hne : conns.isEmpty = false := by
      cases conns
      · exact absurd rfl hc
      · rfl
    simp [broadcast_latest_log, hne, hget]
  · cases conns <;> rfl
  · intro h
    cases conns
    · rfl
    · simp [broadcast_latest_log, get_latest_log_entry, h]
  · intro s h hj
    have hget : get_latest_log_entry jl now (some lines) = none := by
      simp [get_latest_log_entry, h, hj]
    refine ⟨hget, ?_⟩
    cases conns
    · rfl
    · simp [broadcast_latest_log, hget]

/-- Counterexample to C6 as stated: the file holds the well-formed line
`objLineA` followed by the malformed line `oops`; a growth notification
delivers nothing (the tailer only parses the last non-blank line), even
though a well-formed line exists. -/
theorem c6_counterexample :
    get_latest_log_entry jlC nowC (some [objLineA, "oops"]) = none
  ∧ (broadcast_latest_log sendOkAll jlC nowC (some [objLineA, "oops"]) [0]).attempts = []
  ∧ jlC (pyStrip objLineA) = some objA := by
  exact ⟨rfl, rfl, rfl⟩

/-- Witness for C6 (amended) at a concrete state: a single object line
is delivered, timestamp-annotated, to the one connected viewer. -/
theorem c6_witness :
    get_latest_log_entry jlC nowC (some [objLineA])
      = some (.obj [("request", .str "a"), ("response", .num 1),
          ("timestamp", .str nowC)])
  ∧ (broadcast_latest_log sendOkAll jlC nowC (some [objLineA]) [0]).attempts
      = [(0, WsMessage.update (.obj [("request", .str "a"), ("response", .num 1),
          ("timestamp", .str nowC)]))] := by
  have h := (c6_tailer sendOkAll jlC nowC [objLineA] [0]).1 objLineA
    [("request", .str "a"), ("response", .num 1)] (by rfl) (by rfl)
  exact ⟨h.1.trans (by rfl), (h.2 (by decide)).trans (by rfl)⟩

/-- **C7** (amended): on the full-history snapshot path a malformed
(invalid-JSON) line is skipped silently and the read continues with the
remaining lines; a missing file yields zero entries (respectively no
entry) on both read paths; but on the latest-entry path only the last
non-blank line is considered, and when it is malformed the read aborts
with no entry instead of skipping to an earlier line. -/
theorem c7_read_tolerance (jl : String → Option JVal) (now : String) :
    (∀ l rest acc, ¬(pyStrip l = "") → jl (pyStrip l) = none →
        getAllGo jl now (l :: rest) acc = getAllGo jl now rest acc)
  ∧ (∀ l rest, ¬(pyStrip l = "") → jl (pyStrip l) = none →
      get_all_log_entries jl now (some (l :: rest))
        = get_all_log_entries jl now (some rest))
  ∧ get_all_log_entries jl now none = []
  ∧ get_latest_log_entry jl now none = none
  ∧ (∀ lines s, lastNonEmpty lines = some s → jl s = none →
      get_latest_log_entry jl now (some lines) = none) := by
  have hskip : ∀ l rest acc, ¬(pyStrip l = "") → jl (pyStrip l) = none →
      getAllGo jl now (l :: rest) acc = getAllGo jl now rest acc := by
    intro l rest acc hs hj
    simp [getAllGo, beq_eq_false_iff_ne.mpr hs, hj]
  refine ⟨hskip, ?_, rfl, rfl, ?_⟩
  · intro l rest hs hj
    exact hskip l rest [] hs hj
  · intro lines s h hj
    simp [get_latest_log_entry, h, hj]

/-- Counterexample to C7 as stated: with file `objLineX` + `nope`, the
latest-entry path returns nothing - the malformed last line aborts the
read rather than being skipped (dropping it would have delivered the
earlier entry) - while the full-history path over the same file does
skip it. -/
theorem c7_counterexample :
    get_latest_log_entry jlC nowC (some [objLineX, "nope"]) = none
  ∧ get_latest_log_entry jlC nowC (some [objLineX])
      = some (.obj [("x", .num 2), ("timestamp", .str nowC)])
  ∧ get_all_log_entries jlC nowC (some [objLineX, "nope"])
      = [.obj [("x", .num 2), ("timestamp", .str nowC)]] := by
  exact ⟨rfl, rfl, rfl⟩

/-- Witness for C7 (amended) at concrete states: a malformed leading
line is skipped by the snapshot read, and a missing file reads as
empty on both paths. -/
theorem c7_witness :
    get_all_log_entries jlC nowC (some ["nope", objLineX])
      = get_all_log_entries jlC nowC (some [objLineX])
  ∧ get_all_log_entries jlC nowC none = []
  ∧ get_latest_log_entry jlC nowC none = none := by
  have h := c7_read_tolerance jlC nowC
  exact ⟨h.2.1 "nope" [objLineX] (by decide) (by rfl), h.2.2.1, h.2.2.2.1⟩

/-- `disconnect` is `List.erase` (removal of a non-member is a no-op
either way). -/
theorem disconnect_eq_erase (cs : List Viewer) (w : Viewer) :
    disconnect cs w = cs.erase w := by
  unfold disconnect
  split
  · rfl
  · exact (List.erase_of_not_mem (by assumption)).symm

/-- Folding `disconnect` is folding `List.erase`. -/
theorem foldl_disconnect_eq_foldl_erase (ds : List Viewer) :
    ∀ init : List Viewer,
    ds.foldl (fun cs c => disconnect cs c) init
      = ds.foldl (fun cs c => cs.erase c) init := by
  intro init
  simp only [disconnect_eq_erase]

/-- Erasing elements absent from the head leaves the head in place. -/
theorem foldl_erase_cons (ds : List Viewer) :
    ∀ (x : Viewer) (init : List Viewer), x ∉ ds →
    ds.foldl (fun cs c => cs.erase c) (x :: init)
      = x :: ds.foldl (fun cs c => cs.erase c) init := by
  induction ds with
  | nil => intro x init _; rfl
  | cons d ds ih =>
      intro x init hx
      have hdx : ¬(x = d) := fun h => hx (by simp [h])
      have h1 : (x :: init).erase d = x :: init.erase d := by
        rw [List.erase_cons]
        simp [hdx]
      simp only [List.foldl_cons, h1]
      exact ih x (init.erase d) (fun hmem => hx (by simp [hmem]))

/-- Erasing, from a duplicate-free list, exactly the elements failing a
test keeps exactly the elements passing it, in order. -/
theorem foldl_erase_filter (l : List Viewer) (p : Viewer → Bool) (h : l.Nodup) :
    (l.filter (fun c => ! p c)).foldl (fun cs c => cs.erase c) l = l.filter p := by
  induction l with
  | nil => rfl
  | cons a t ih =>
      obtain ⟨ha, ht⟩ := List.nodup_cons.mp h
      cases hp : p a
      · have hfilter : (a :: t).filter (fun c => ! p c)
            = a :: t.filter (fun c => ! p c) := by simp [hp]
        rw [hfilter]
        simp only [List.foldl_cons, List.erase_cons_head]
        rw [ih ht]
        simp [hp]
      · have hfilter : (a :: t).filter (fun c => ! p c)
            = t.filter (fun c => ! p c) := by simp [hp]
        rw [hfilter]
        have hnot : a ∉ t.filter (fun c => ! p c) :=
          fun hm => ha (List.mem_of_mem_filter hm)
        rw [foldl_erase_cons _ a t hnot]
        rw [ih ht]
        simp [hp]

/-- **C9**: with no viewers the broadcast is a no-op; otherwise every
viewer registered at broadcast time receives exactly one `update`
attempt - the attempt list is built from the original connection list,
so the set is not mutated mid-broadcast - and removal of the failed
viewers happens only after the full pass: afterwards the registry is
exactly the viewers whose send succeeded, in order, so failed viewers
are gone and successful ones are untouched. -/
theorem c9_notify (sendOk : Viewer → WsMessage → Bool) (jl : String → Option JVal)
    (now : String) (file : Option (List String)) (conns : List Viewer)
    (entry : JVal) (hnd : conns.Nodup)
    (hlatest : get_latest_log_entry jl now file = some entry) :
    (conns = [] → broadcast_latest_log sendOk jl now file conns = ⟨conns, []⟩)
  ∧ (conns ≠ [] →
      ((broadcast_latest_log sendOk jl now file conns).attempts
        = conns.map (fun c => (c, WsMessage.update entry)))
    ∧ ((broadcast_latest_log sendOk jl now file conns).conns
        = conns.filter (fun c => sendOk c (WsMessage.update entry)))
    ∧ (∀ c ∈ conns, sendOk c (WsMessage.update entry) = false →
        c ∉ (broadcast_latest_log sendOk jl now file conns).conns)
    ∧ (∀ c ∈ conns, sendOk c (WsMessage.update entry) = true →
        c ∈ (broadcast_latest_log sendOk jl now file conns).conns)) := by
  constructor
  · intro h
    subst h
    rfl
  · intro hne
    have hempty : conns.isEmpty = false := by
      cases conns
      · exact absurd rfl hne
      · rfl
    have hb : broadcast_latest_log sendOk jl now file conns
        = ⟨conns.filter (fun c => sendOk c (WsMessage.update entry)),
            conns.map (fun c => (c, WsMessage.update entry))⟩ := by
      simp only [broadcast_latest_log, hempty, Bool.false_eq_true, if_false, hlatest]
      rw [foldl_disconnect_eq_foldl_erase, foldl_erase_filter conns _ hnd]
    rw [hb]
    refine ⟨rfl, rfl, ?_, ?_⟩
    · intro c hc hfail hmem
      have := (List.mem_filter.mp hmem).2
      rw [hfail] at this
      exact Bool.false_ne_true this
    · intro c hc hok
      exact List.mem_filter.mpr ⟨hc, hok⟩

/-- Witness for C9 at a concrete broadcast: viewers `0` and `1`, the
send to `1` fails - both get one attempt against the original list,
and after the pass only viewer `0` remains registered. -/
theorem c9_witness :
    (broadcast_latest_log sendOkFail1 jlC nowC (some [objLineA]) [0, 1]).attempts
      = [(0, WsMessage.update (.obj [("request", .str "a"), ("response", .num 1),
            ("timestamp", .str nowC)])),
         (1, WsMessage.update (.obj [("request", .str "a"), ("response", .num 1),
            ("timestamp", .str nowC)]))]
  ∧ (broadcast_latest_log sendOkFail1 jlC nowC (some [objLineA]) [0, 1]).conns = [0] := by
  have h := (c9_notify sendOkFail1 jlC nowC (some [objLineA]) [0, 1]
    (.obj [("request", .str "a"), ("response", .num 1), ("timestamp", .str nowC)])
    (by decide) (by rfl)).2 (by decide)
  exact ⟨h.1.trans (by rfl), h.2.1.trans (by rfl)⟩
